import Mathlib

/-!
Verification of the roborev review-orchestration core.

This development shallowly embeds the parts of the repository that the
specification's claims are about:

* `internal/agent/ollama.go` — the Ollama HTTP streaming driver: its NDJSON
  stream parser (`parseStream`), the `truncate` helper, and the builder-style
  configuration operations (`WithModel`, `WithReasoning`, `WithAgentic`).
* `internal/storage` (jobs.go, repos.go, commits.go) — the durable store:
  `EnqueueJob`, `ClaimJob`, `CompleteJob`, `FailJob`, `ListJobs`,
  `GetJobCounts`.

Machine integers become `Nat`, RFC3339 timestamps become `Nat` instants
(string comparison of same-length RFC3339 text is chronological), SQL rows
become lists of structures, and the two SQL operations whose row choice among
ties is not determined by the query (`ClaimJob`'s `ORDER BY j.enqueued_at
LIMIT 1` and `ListJobs`'s `ORDER BY j.enqueued_at DESC`) become relations
that admit every tie order.
-/

namespace RoboRev

/-! ## Agent: Ollama driver (internal/agent/ollama.go) -/

/-- Reasoning levels of the agent package. The defining file (agent.go) is not
part of the sources at hand; the three constants `ReasoningFast`,
`ReasoningStandard`, `ReasoningThorough` are taken from their uses in
ollama.go and the spec's `reasoning ∈ {fast, standard, thorough}`. -/
inductive ReasoningLevel : Type
| fast
| standard
| thorough
deriving Repr, DecidableEq

/-- OllamaAgent struct from ollama.go. The `HTTPClient *http.Client` pointer
is opaque to every claim; it is kept as an abstract optional tag so that the
builder operations can be seen to copy it. -/
structure OllamaAgent : Type where
  baseURL : String
  model : String
  reasoning : ReasoningLevel
  agentic : Bool
  httpClient : Option Nat
deriving Repr, DecidableEq

/-- WithModel from ollama.go: empty model returns the receiver itself,
otherwise a copy with the model replaced. -/
def OllamaAgent.withModel (a : OllamaAgent) (model : String) : OllamaAgent :=
  if model = "" then a
  else { baseURL := a.baseURL, model := model, reasoning := a.reasoning,
         agentic := a.agentic, httpClient := a.httpClient }

/-- WithReasoning from ollama.go: a copy with the reasoning level replaced. -/
def OllamaAgent.withReasoning (a : OllamaAgent) (level : ReasoningLevel) : OllamaAgent :=
  { baseURL := a.baseURL, model := a.model, reasoning := level,
    agentic := a.agentic, httpClient := a.httpClient }

/-- WithAgentic from ollama.go: a copy with the agentic flag replaced. -/
def OllamaAgent.withAgentic (a : OllamaAgent) (agentic : Bool) : OllamaAgent :=
  { baseURL := a.baseURL, model := a.model, reasoning := a.reasoning,
    agentic := agentic, httpClient := a.httpClient }

/-- truncate from ollama.go: `s` unchanged when short enough, otherwise the
first `maxLen` characters followed by an ellipsis (Go slices `s[:maxLen]`
by bytes; the model slices the character sequence, written through
`String.mk ∘ List.take` so that the prefix length is visible). -/
def truncate (s : String) (maxLen : Nat) : String :=
  if s.length ≤ maxLen then s else String.mk (s.data.take maxLen) ++ "..."

/-- ollamaChatMessage from ollama.go. -/
structure OllamaChatMessage : Type where
  role : String
  content : String
deriving Repr, DecidableEq

/-- ollamaChatResponse from ollama.go: one decoded NDJSON stream line. -/
structure OllamaChatResponse : Type where
  message : OllamaChatMessage
  done : Bool
  error : String
deriving Repr, DecidableEq

/-- One physical line of the NDJSON response stream: the raw text together
with the result of `json.Unmarshal` into `ollamaChatResponse` (`none` when
unmarshalling fails). The JSON grammar itself is not modelled; a stream is
any list of such lines. -/
structure StreamLine : Type where
  raw : String
  parsed : Option OllamaChatResponse
deriving Repr, DecidableEq

/-- Result of parseStream: the returned text, the chunks written to the
progress sink (in order), and the returned error message if any. The model
sink always accepts writes, matching a sink that never fails. -/
structure ParseOutcome : Type where
  text : String
  sinkWrites : List String
  err : Option String
deriving Repr, DecidableEq

/-- Loop of parseStream from ollama.go, with the mutable locals made
explicit: `acc` is the strings.Builder content, `ws` the writes issued to the
sink so far, `fails` the consecutiveParseFailures counter, `saw` the
sawValidJSON flag. `sinkSet` records whether `newSyncWriter(output)` returned
a non-nil writer. -/
def parseStreamLoop (sinkSet : Bool) :
    List StreamLine → String → List String → Nat → Bool → ParseOutcome
| [], acc, ws, _, _ =>
    if acc = "" then ⟨"No review output generated", ws, none⟩ else ⟨acc, ws, none⟩
| l :: rest, acc, ws, fails, saw =>
    if l.raw = "" then parseStreamLoop sinkSet rest acc ws fails saw
    else
      match l.parsed with
      | none =>
          if !saw ∧ fails + 1 ≥ 5 then
            ⟨"", ws,
              some ("ollama returned non-JSON response (first line: " ++
                truncate l.raw 200 ++ ")")⟩
          else parseStreamLoop sinkSet rest acc ws (fails + 1) saw
      | some resp =>
          if resp.error ≠ "" then
            ⟨acc, ws, some ("ollama error: " ++ resp.error)⟩
          else
            let acc' := acc ++ resp.message.content
            let ws' :=
              if resp.message.content ≠ "" ∧ sinkSet then
                ws ++ [resp.message.content]
              else ws
            if resp.done then
              if acc' = "" then ⟨"No review output generated", ws', none⟩
              else ⟨acc', ws', none⟩
            else parseStreamLoop sinkSet rest acc' ws' 0 true

/-- parseStream from ollama.go, entered with zeroed locals. -/
def parseStream (sinkSet : Bool) (lines : List StreamLine) : ParseOutcome :=
  parseStreamLoop sinkSet lines "" [] 0 false

/-- Content carried by a stream line: the message content of its parse
result, empty for lines that do not parse. -/
def lineContent (x : StreamLine) : String :=
  match x.parsed with
  | some r => r.message.content
  | none => ""

/-- Concatenated contents of a list of stream lines. -/
def textOf : List StreamLine → String
| [] => ""
| x :: t => lineContent x ++ textOf t

/-- Chunks parseStream forwards to the sink while consuming a list of valid
lines: every non-empty content in order, and nothing when no sink is set. -/
def writesOf (sinkSet : Bool) : List StreamLine → List String
| [] => []
| x :: t =>
    (if lineContent x ≠ "" ∧ sinkSet then [lineContent x] else []) ++
      writesOf sinkSet t

/-- Number of non-empty lines that fail to parse before the first line that
parses. -/
def malformedCountBeforeValid : List StreamLine → Nat
| [] => 0
| x :: t =>
    if x.raw = "" then malformedCountBeforeValid t
    else
      match x.parsed with
      | none => 1 + malformedCountBeforeValid t
      | some _ => 0

/-- Raw text of the n-th (1-based) non-empty line failing to parse before the
first line that parses. -/
def nthMalformedRaw : List StreamLine → Nat → Option String
| [], _ => none
| x :: t, n =>
    if x.raw = "" then nthMalformedRaw t n
    else
      match x.parsed with
      | none => if n = 1 then some x.raw else nthMalformedRaw t (n - 1)
      | some _ => none

/-- The lines parseStream acts on: non-empty and parsing successfully. -/
def goodLines (lines : List StreamLine) : List StreamLine :=
  lines.filter (fun x => x.raw ≠ "" && x.parsed.isSome)

/-- A non-empty line that parses with an empty in-band error field. -/
def validLine (x : StreamLine) : Prop :=
  x.raw ≠ "" ∧ ∃ r, x.parsed = some r ∧ r.error = ""

/-- Boolean form of `validLine`. -/
def validLineB (x : StreamLine) : Bool :=
  (x.raw ≠ "") &&
    (match x.parsed with
     | some r => r.error = ""
     | none => false)

instance (x : StreamLine) : Decidable (validLine x) :=
  decidable_of_iff (validLineB x = true) (by
    cases hx : x.parsed with
    | none => simp [validLineB, validLine, hx]
    | some r => simp [validLineB, validLine, hx])

/-- A line whose parse result carries done = true. -/
def doneLine (x : StreamLine) : Prop := ∃ r, x.parsed = some r ∧ r.done = true

/-- Boolean form of `doneLine`. -/
def doneLineB (x : StreamLine) : Bool :=
  match x.parsed with
  | some r => r.done
  | none => false

instance (x : StreamLine) : Decidable (doneLine x) :=
  decidable_of_iff (doneLineB x = true) (by
    cases hx : x.parsed with
    | none => simp [doneLineB, doneLine, hx]
    | some r => simp [doneLineB, doneLine, hx])

/-- Prefix of a stream up to and including its first done line. -/
def uptoDone : List StreamLine → List StreamLine
| [] => []
| x :: t =>
    match x.parsed with
    | some r => if r.done then [x] else x :: uptoDone t
    | none => x :: uptoDone t

/-- Final text of parseStream: the placeholder when nothing accumulated. -/
def finalText (t : String) : String :=
  if t = "" then "No review output generated" else t

/-! ## Durable store (internal/storage) -/

/-- Job status values of the storage package (JobStatusQueued … ; the file
declaring them is referenced throughout part_008). -/
inductive JobStatus : Type
| queued
| running
| done
| failed
| canceled
deriving Repr, DecidableEq

/-- Text stored in the `status` column for each status value. -/
def JobStatus.str : JobStatus → String
| .queued => "queued"
| .running => "running"
| .done => "done"
| .failed => "failed"
| .canceled => "canceled"

/-- Row of the `repos` table (fields used by the claims). -/
structure Repo : Type where
  id : Nat
  rootPath : String
  name : String
deriving Repr, DecidableEq

/-- Row of the `commits` table (fields used by the claims). -/
structure Commit : Type where
  id : Nat
  repoId : Nat
  sha : String
  subject : String
deriving Repr, DecidableEq

/-- Row of the `review_jobs` table. RFC3339 timestamps are `Nat` instants. -/
structure ReviewJob : Type where
  id : Nat
  repoId : Nat
  commitId : Nat
  agent : String
  status : JobStatus
  enqueuedAt : Nat
  startedAt : Option Nat
  finishedAt : Option Nat
  workerId : Option String
  error : Option String
deriving Repr, DecidableEq

/-- Row of the `reviews` table (fields used by the claims). -/
structure Review : Type where
  id : Nat
  jobId : Nat
  agent : String
  prompt : String
  output : String
deriving Repr, DecidableEq

/-- A job row joined with its repo and commit metadata, as produced by the
`JOIN repos r … JOIN commits c …` queries of ClaimJob and ListJobs. -/
structure JobRow : Type where
  job : ReviewJob
  rootPath : String
  repoName : String
  sha : String
  subject : String
deriving Repr, DecidableEq

/-- State of the database file: the four tables the claims mention. -/
structure Store : Type where
  repos : List Repo
  commits : List Commit
  jobs : List ReviewJob
  reviews : List Review
deriving Repr, DecidableEq

/-- The empty database. -/
def Store.empty : Store := ⟨[], [], [], []⟩

/-- Fresh monotonically assigned row id (`all IDs are monotonically assigned
integers`; SQLite assigns max rowid + 1). -/
def freshId (ids : List Nat) : Nat := ids.foldr max 0 + 1

/-- EnqueueJob from part_008: inserts a row with status queued. The INSERT
does not list `enqueued_at`; the column takes the current time as its
default, given here as `now`. Returns the new store and the returned job. -/
def EnqueueJob (s : Store) (now : Nat) (repoId commitId : Nat) (agent : String) :
    Store × ReviewJob :=
  let j : ReviewJob :=
    { id := freshId (s.jobs.map ReviewJob.id), repoId := repoId,
      commitId := commitId, agent := agent, status := .queued,
      enqueuedAt := now, startedAt := none, finishedAt := none,
      workerId := none, error := none }
  ({ s with jobs := s.jobs ++ [j] }, j)

/-- A job the SELECT of ClaimJob can return: status queued and (because of
the two JOINs) a matching repos row and commits row exist. -/
def claimable (s : Store) (j : ReviewJob) : Prop :=
  j.status = .queued ∧ (∃ r ∈ s.repos, r.id = j.repoId) ∧
    (∃ c ∈ s.commits, c.id = j.commitId)

instance (s : Store) (j : ReviewJob) : Decidable (claimable s j) := by
  unfold claimable; infer_instance

/-- Effect of ClaimJob's UPDATE on a stored row: status running, worker and
start time assigned; the other columns keep their stored values. -/
def claimUpdate (j : ReviewJob) (w : String) (now : Nat) : ReviewJob :=
  { j with status := .running, workerId := some w, startedAt := some now }

/-- The ReviewJob value ClaimJob returns: the scanned columns (id, repo_id,
commit_id, agent, enqueued_at) with status, workerId and startedAt
overwritten; started/finished/worker/error columns are not scanned, so
finishedAt and error are the zero values. -/
def claimedView (j : ReviewJob) (w : String) (now : Nat) : ReviewJob :=
  { id := j.id, repoId := j.repoId, commitId := j.commitId, agent := j.agent,
    status := .running, enqueuedAt := j.enqueuedAt, startedAt := some now,
    finishedAt := none, workerId := some w, error := none }

/-- Effect of ClaimJob's UPDATE on the store: every row whose id matches the
selected job's is claimed. -/
def claimStoreUpdate (s : Store) (jobId : Nat) (w : String) (now : Nat) : Store :=
  { s with jobs := s.jobs.map (fun k =>
      if k.id = jobId then claimUpdate k w now else k) }

/-- ClaimJob from part_008 as a relation on results. The SELECT orders by
`j.enqueued_at` alone with `LIMIT 1`, so any row that is minimal by
enqueuedAt may be returned; the relation admits each such choice. `none` is
returned exactly when the SELECT yields no row (sql.ErrNoRows). -/
def ClaimJobRel (s : Store) (w : String) (now : Nat) :
    Option (JobRow × Store) → Prop
| none => ∀ j ∈ s.jobs, ¬ claimable s j
| some (row, s') =>
    ∃ j ∈ s.jobs, claimable s j ∧
      (∀ k ∈ s.jobs, claimable s k → j.enqueuedAt ≤ k.enqueuedAt) ∧
      (∃ r ∈ s.repos, r.id = j.repoId ∧ row.rootPath = r.rootPath ∧
        row.repoName = r.name) ∧
      (∃ c ∈ s.commits, c.id = j.commitId ∧ row.sha = c.sha ∧
        row.subject = c.subject) ∧
      row.job = claimedView j w now ∧
      s' = claimStoreUpdate s j.id w now

instance (s : Store) (w : String) (now : Nat) (out : Option (JobRow × Store)) :
    Decidable (ClaimJobRel s w now out) := by
  cases out with
  | none => unfold ClaimJobRel; infer_instance
  | some p => cases p with
    | mk row s' => unfold ClaimJobRel; infer_instance

/-- Review row inserted by CompleteJob's INSERT. -/
def newReview (s : Store) (jobId : Nat) (agent prompt output : String) : Review :=
  { id := freshId (s.reviews.map Review.id), jobId := jobId,
    agent := agent, prompt := prompt, output := output }

/-- Committed body of CompleteJob's transaction: the job rows with the id set
to done with finishedAt = now, and the review row appended. -/
def completeStoreUpdate (s : Store) (now : Nat) (jobId : Nat)
    (agent prompt output : String) : Store :=
  { s with
    jobs := s.jobs.map (fun j =>
      if j.id = jobId then { j with status := .done, finishedAt := some now }
      else j),
    reviews := s.reviews ++ [newReview s jobId agent prompt output] }

/-- CompleteJob from part_008: one transaction that sets the job row (if any)
to status done with `finished_at = now` and inserts the review row. The code
checks nothing about the job; the only failing statement is the INSERT when a
review for the job already exists.

Modelled from the spec: the schema file is not among the sources, so the
UNIQUE constraint on `reviews.job_id` is taken from the spec's data model
(`Review {id, jobId (unique), …}`). An `error` result leaves the state
unchanged (`tx.Rollback`). -/
def CompleteJob (s : Store) (now : Nat) (jobId : Nat)
    (agent prompt output : String) : Except String Store :=
  if s.reviews.any (fun r => r.jobId = jobId) then
    Except.error "UNIQUE constraint failed: reviews.job_id"
  else
    Except.ok (completeStoreUpdate s now jobId agent prompt output)

/-- FailJob from part_008: a single unconditional UPDATE, no transaction and
no precondition; a jobID that matches no row is a successful no-op. -/
def FailJob (s : Store) (now : Nat) (jobId : Nat) (errorMsg : String) : Store :=
  { s with jobs := s.jobs.map (fun j =>
      if j.id = jobId then
        { j with status := .failed, finishedAt := some now,
                 error := some errorMsg }
      else j) }

/-- GetJobCounts from part_008: the GROUP BY counts, with only the queued,
running, done and failed buckets assigned by the switch. -/
def GetJobCounts (s : Store) : Nat × Nat × Nat × Nat :=
  (s.jobs.countP (fun j => j.status = .queued),
   s.jobs.countP (fun j => j.status = .running),
   s.jobs.countP (fun j => j.status = .done),
   s.jobs.countP (fun j => j.status = .failed))

/-- The joined, status-filtered rows ListJobs's query ranges over. An empty
statusFilter means no WHERE clause. Row ids are primary keys, so the joins
find at most the first matching repos and commits rows. -/
def joinedRows (s : Store) (statusFilter : String) : List JobRow :=
  (s.jobs.filter
      (fun j => statusFilter = "" || j.status.str = statusFilter)).filterMap
    (fun j =>
      match s.repos.find? (fun r => r.id = j.repoId),
            s.commits.find? (fun c => c.id = j.commitId) with
      | some r, some c =>
          some ⟨j, r.rootPath, r.name, c.sha, c.subject⟩
      | _, _ => none)

/-- ListJobs from part_008 as a relation on outputs: the joined filtered rows
in some order that is non-increasing by enqueuedAt (`ORDER BY j.enqueued_at
DESC` determines no order among equal keys), truncated by LIMIT when the
limit argument is positive. -/
def ListJobsRel (s : Store) (statusFilter : String) (limit : Int)
    (out : List JobRow) : Prop :=
  ∃ full : List JobRow, full.Perm (joinedRows s statusFilter) ∧
    full.Pairwise (fun a b => b.job.enqueuedAt ≤ a.job.enqueuedAt) ∧
    out = if 0 < limit then full.take limit.toNat else full

/-- GetOrCreateRepo from repos.go, insert case: when no row has the path, a
fresh row is inserted (name is the path's base name; paths are kept
abstract). -/
def CreateRepo (s : Store) (rootPath name : String) : Store :=
  { s with repos := s.repos ++
      [{ id := freshId (s.repos.map Repo.id), rootPath := rootPath,
         name := name }] }

/-- GetOrCreateCommit from commits.go, insert case: when no row has the sha,
a fresh row is inserted. -/
def CreateCommit (s : Store) (repoId : Nat) (sha subject : String) : Store :=
  { s with commits := s.commits ++
      [{ id := freshId (s.commits.map Commit.id), repoId := repoId,
         sha := sha, subject := subject }] }

/-- One store mutation through the storage API of the sources: repo and
commit creation, enqueue, a successful claim, a successful complete, and
fail. -/
inductive Step : Store → Store → Prop
| createRepo (s : Store) (rootPath name : String) :
    (∀ r ∈ s.repos, r.rootPath ≠ rootPath) →
    Step s (CreateRepo s rootPath name)
| createCommit (s : Store) (repoId : Nat) (sha subject : String) :
    (∀ c ∈ s.commits, c.sha ≠ sha) →
    Step s (CreateCommit s repoId sha subject)
| enqueue (s : Store) (now repoId commitId : Nat) (agent : String) :
    Step s (EnqueueJob s now repoId commitId agent).1
| claim (s s' : Store) (w : String) (now : Nat) (row : JobRow) :
    ClaimJobRel s w now (some (row, s')) → Step s s'
| complete (s s' : Store) (now jobId : Nat) (agent prompt output : String) :
    CompleteJob s now jobId agent prompt output = Except.ok s' → Step s s'
| fail (s : Store) (now jobId : Nat) (errorMsg : String) :
    Step s (FailJob s now jobId errorMsg)

/-- Stores reachable from the empty database through the storage API. -/
inductive Reachable : Store → Prop
| init : Reachable Store.empty
| step {s s' : Store} : Reachable s → Step s s' → Reachable s'

/-- Referential integrity of the data model (`repoId → Repo`,
`commitId → Commit`): every job's repo and commit rows exist. -/
def Intact (s : Store) : Prop :=
  ∀ j ∈ s.jobs, (∃ r ∈ s.repos, r.id = j.repoId) ∧
    (∃ c ∈ s.commits, c.id = j.commitId)

instance (s : Store) : Decidable (Intact s) := by
  unfold Intact; infer_instance

/-! ## Shared concrete stores for witnesses and counterexamples -/

/-- A repo row used by the concrete stores below. -/
def tieRepo : Repo := ⟨1, "/tmp/x", "x"⟩

/-- A commit row used by the concrete stores below. -/
def tieCommit : Commit := ⟨1, 1, "abc123", "subj"⟩

/-- A queued job with id 1, enqueued at instant 10. -/
def tieJob1 : ReviewJob := ⟨1, 1, 1, "codex", .queued, 10, none, none, none, none⟩

/-- A queued job with id 2, also enqueued at instant 10. -/
def tieJob2 : ReviewJob := ⟨2, 1, 1, "codex", .queued, 10, none, none, none, none⟩

/-- A store with two queued jobs that share their enqueuedAt instant. -/
def tieStore : Store := ⟨[tieRepo], [tieCommit], [tieJob1, tieJob2], []⟩

/-- An agent value as the registry holds it (`NewOllamaAgent("")`). -/
def agentEx : OllamaAgent := ⟨"http://localhost:11434", "", .standard, false, none⟩

/-- A job already in the terminal status done. -/
def doneJob : ReviewJob := ⟨3, 1, 1, "codex", .done, 7, some 8, some 9, some "w", none⟩

/-- A store holding only `doneJob`. -/
def doneStore : Store := ⟨[tieRepo], [tieCommit], [doneJob], []⟩

/-- The joined row ClaimJob may return for `tieJob1`. -/
def c1Row : JobRow := ⟨claimedView tieJob1 "w1" 99, "/tmp/x", "x", "abc123", "subj"⟩

/-- A review row for job 1. -/
def reviewEx : Review := ⟨1, 1, "codex", "p", "o"⟩

/-- A store in which job 1 is done and already has its review. -/
def reviewedStore : Store :=
  ⟨[tieRepo], [tieCommit],
   [⟨1, 1, 1, "codex", .done, 10, some 11, some 12, some "w1", none⟩],
   [reviewEx]⟩

/-- A queued job enqueued at instant 20. -/
def distJob1 : ReviewJob := ⟨1, 1, 1, "codex", .queued, 20, none, none, none, none⟩

/-- A done job enqueued at instant 10. -/
def distJob2 : ReviewJob := ⟨2, 1, 1, "codex", .done, 10, none, none, none, none⟩

/-- A store whose jobs have pairwise distinct enqueuedAt instants. -/
def distStore : Store := ⟨[tieRepo], [tieCommit], [distJob1, distJob2], []⟩

/-- Trace store: a repo row created in the empty store. -/
def exS1 : Store := CreateRepo Store.empty "/tmp/x" "x"

/-- Trace store: its commit row added. -/
def exS2 : Store := CreateCommit exS1 1 "abc123" "subj"

/-- Trace store: a review job enqueued at instant 1. -/
def exS3 : Store := (EnqueueJob exS2 1 1 1 "codex").1

/-- The enqueued trace job. -/
def exJob : ReviewJob := (EnqueueJob exS2 1 1 1 "codex").2

/-- The joined row returned when worker w1 claims the trace job. -/
def exRow : JobRow := ⟨claimedView exJob "w1" 2, "/tmp/x", "x", "abc123", "subj"⟩

/-- Trace store: the job claimed by worker w1 at instant 2. -/
def exS4 : Store := claimStoreUpdate exS3 1 "w1" 2

/-- Trace store: the job completed at instant 3. -/
def exS5 : Store := completeStoreUpdate exS4 3 1 "codex" "p" "out"

/-- Trace store: the completed job then failed at instant 4. -/
def exS6 : Store := FailJob exS5 4 1 "boom"

/-- The completed trace job as it sits in exS5. -/
def exDoneJob : ReviewJob :=
  ⟨1, 1, 1, "codex", .done, 1, some 2, some 3, some "w1", none⟩

/-- A store whose only job is canceled. -/
def canceledStore : Store :=
  ⟨[], [], [⟨1, 1, 1, "codex", .canceled, 0, none, none, none, none⟩], []⟩

/-- A valid early chunk line of the happy-path stream. -/
def respThis : OllamaChatResponse := ⟨⟨"assistant", "This "⟩, false, ""⟩

/-- A valid middle chunk line of the happy-path stream. -/
def respIs : OllamaChatResponse := ⟨⟨"assistant", "is "⟩, false, ""⟩

/-- The last content chunk of the happy-path stream. -/
def respATest : OllamaChatResponse := ⟨⟨"assistant", "a test"⟩, false, ""⟩

/-- The closing done message of a stream. -/
def respDone : OllamaChatResponse := ⟨⟨"assistant", ""⟩, true, ""⟩

/-- One leading malformed line followed by a valid stream. -/
def mixedLines : List StreamLine :=
  [⟨"junk", none⟩, ⟨"l1", some respThis⟩, ⟨"l4", some respDone⟩]

/-- Five malformed lines, as an HTML error page would produce. -/
def malLines : List StreamLine :=
  [⟨"<html>", none⟩, ⟨"<head>", none⟩, ⟨"<body>", none⟩,
   ⟨"error", none⟩, ⟨"page", none⟩]

/-- The happy-path stream of spec seed case 5. -/
def c5Lines : List StreamLine :=
  [⟨"l1", some respThis⟩, ⟨"l2", some respIs⟩,
   ⟨"l3", some respATest⟩, ⟨"l4", some respDone⟩]

/-- A stream whose only line is done with empty content. -/
def emptyDoneLines : List StreamLine := [⟨"l1", some respDone⟩]

/-- A valid chunk line carrying "Hello ". -/
def respHello : OllamaChatResponse := ⟨⟨"assistant", "Hello "⟩, false, ""⟩

/-- A line whose in-band error field is set. -/
def respErr : OllamaChatResponse := ⟨⟨"assistant", ""⟩, false, "model crashed"⟩

/-- The accumulated prefix before the error line. -/
def c9Pre : List StreamLine := [⟨"l1", some respHello⟩]

/-- The error line itself. -/
def c9ErrLine : StreamLine := ⟨"l2", some respErr⟩

/-- Lines after the error, which must be ignored. -/
def c9Rest : List StreamLine := [⟨"l3", some respDone⟩]

/-! ## C7: builder-style agent configuration -/

/-- C7: for every agent value, withModel (on a non-empty model), withReasoning
and withAgentic return a configured value that changes only the targeted
field and copies every other field of the original, and the no-op
withModel "" returns the original value itself; the operations are pure, so
the original value is unchanged in all fields. -/
theorem ollama_builder_spec (a : OllamaAgent) (m : String) (l : ReasoningLevel)
    (b : Bool) :
    (m ≠ "" →
      (a.withModel m).model = m ∧ (a.withModel m).baseURL = a.baseURL ∧
      (a.withModel m).reasoning = a.reasoning ∧
      (a.withModel m).agentic = a.agentic ∧
      (a.withModel m).httpClient = a.httpClient) ∧
    a.withModel "" = a ∧
    ((a.withReasoning l).reasoning = l ∧
      (a.withReasoning l).baseURL = a.baseURL ∧
      (a.withReasoning l).model = a.model ∧
      (a.withReasoning l).agentic = a.agentic ∧
      (a.withReasoning l).httpClient = a.httpClient) ∧
    ((a.withAgentic b).agentic = b ∧
      (a.withAgentic b).baseURL = a.baseURL ∧
      (a.withAgentic b).model = a.model ∧
      (a.withAgentic b).reasoning = a.reasoning ∧
      (a.withAgentic b).httpClient = a.httpClient) := by
  refine ⟨fun hm => ?_, ?_, ⟨rfl, rfl, rfl, rfl, rfl⟩, ⟨rfl, rfl, rfl, rfl, rfl⟩⟩
  · simp [OllamaAgent.withModel, hm]
  · simp [OllamaAgent.withModel]

/-- Witness for C7 at the registry agent and a concrete model name. -/
theorem ollama_builder_spec_witness :
    (agentEx.withModel "llama3:70b").model = "llama3:70b" ∧
    (agentEx.withModel "llama3:70b").baseURL = agentEx.baseURL ∧
    agentEx.withModel "" = agentEx :=
  ⟨((ollama_builder_spec agentEx "llama3:70b" .thorough true).1 (by decide)).1,
   ((ollama_builder_spec agentEx "llama3:70b" .thorough true).1 (by decide)).2.1,
   (ollama_builder_spec agentEx "llama3:70b" .thorough true).2.1⟩

/-! ## C8: FailJob -/

/-- C8: FailJob unconditionally rewrites every row whose id matches to status
failed with finishedAt = now and the error message recorded, whatever the
row's current status (the statement places no constraint on it, so done and
canceled are covered); rows with other ids and the reviews table are
untouched, and the operation is total — no precondition is checked. -/
theorem failJob_unconditional_spec (s : Store) (now jobId : Nat) (msg : String)
    (j : ReviewJob) (hj : j ∈ s.jobs) :
    (j.id = jobId →
      { j with status := JobStatus.failed, finishedAt := some now,
               error := some msg } ∈ (FailJob s now jobId msg).jobs) ∧
    (j.id ≠ jobId → j ∈ (FailJob s now jobId msg).jobs) ∧
    (FailJob s now jobId msg).reviews = s.reviews ∧
    (FailJob s now jobId msg).jobs.length = s.jobs.length := by
  refine ⟨fun h => ?_, fun h => ?_, rfl, by simp [FailJob]⟩
  · have hmem := List.mem_map_of_mem (fun k : ReviewJob =>
      if k.id = jobId then
        { k with status := JobStatus.failed, finishedAt := some now,
                 error := some msg }
      else k) hj
    simpa [FailJob, h] using hmem
  · have hmem := List.mem_map_of_mem (fun k : ReviewJob =>
      if k.id = jobId then
        { k with status := JobStatus.failed, finishedAt := some now,
                 error := some msg }
      else k) hj
    simpa [FailJob, h] using hmem

/-- Witness for C8: failing a job that is already done. -/
theorem failJob_unconditional_spec_witness :
    { doneJob with status := JobStatus.failed, finishedAt := some 11,
                   error := some "boom" } ∈ (FailJob doneStore 11 3 "boom").jobs :=
  (failJob_unconditional_spec doneStore 11 3 "boom" doneJob (by decide)).1 (by decide)

/-! ## C1: ClaimJob -/

/-- C1 (amended): on a referentially intact store, ClaimJob returns none
exactly when no job has status queued; a returned result consists of a queued
job with minimal enqueuedAt (the query has no id tie-break, see the
counterexample), handed back with status running, workerId and startedAt
assigned, joined with its repo and commit metadata, and the store claims the
rows with that id. -/
theorem claimJob_fifo_spec (s : Store) (w : String) (now : Nat)
    (out : Option (JobRow × Store)) (hs : Intact s)
    (h : ClaimJobRel s w now out) :
    (out = none ↔ ∀ j ∈ s.jobs, j.status ≠ JobStatus.queued) ∧
    (∀ row s', out = some (row, s') →
      ∃ j ∈ s.jobs, j.status = JobStatus.queued ∧
        (∀ k ∈ s.jobs, k.status = JobStatus.queued →
          j.enqueuedAt ≤ k.enqueuedAt) ∧
        row.job = claimedView j w now ∧
        row.job.status = JobStatus.running ∧ row.job.workerId = some w ∧
        row.job.startedAt = some now ∧
        (∃ r ∈ s.repos, r.id = j.repoId ∧ row.rootPath = r.rootPath ∧
          row.repoName = r.name) ∧
        (∃ c ∈ s.commits, c.id = j.commitId ∧ row.sha = c.sha ∧
          row.subject = c.subject) ∧
        s' = claimStoreUpdate s j.id w now) := by
  have hclaim : ∀ j ∈ s.jobs, (claimable s j ↔ j.status = JobStatus.queued) := by
    intro j hj
    exact ⟨fun hc => hc.1, fun hq => ⟨hq, (hs j hj).1, (hs j hj).2⟩⟩
  constructor
  · constructor
    · intro hnone
      subst hnone
      intro j hj hq
      exact (h j hj) ((hclaim j hj).mpr hq)
    · intro hnq
      cases out with
      | none => rfl
      | some p =>
        obtain ⟨row, s'⟩ := p
        obtain ⟨j, hj, hc, -⟩ := h
        exact absurd hc.1 (hnq j hj)
  · intro row s' hout
    subst hout
    obtain ⟨j, hj, hc, hmin, hr, hcm, hrow, hupd⟩ := h
    exact ⟨j, hj, hc.1, fun k hk hkq => hmin k hk ((hclaim k hk).mpr hkq),
      hrow, by rw [hrow]; rfl, by rw [hrow]; rfl, by rw [hrow]; rfl,
      hr, hcm, hupd⟩

/-- Witness for C1 at the two-job store, claiming the id-1 job. -/
theorem claimJob_fifo_spec_witness :
    ∃ j ∈ tieStore.jobs, j.status = JobStatus.queued ∧
      (∀ k ∈ tieStore.jobs, k.status = JobStatus.queued →
        j.enqueuedAt ≤ k.enqueuedAt) ∧
      c1Row.job = claimedView j "w1" 99 ∧
      c1Row.job.status = JobStatus.running ∧ c1Row.job.workerId = some "w1" ∧
      c1Row.job.startedAt = some 99 ∧
      (∃ r ∈ tieStore.repos, r.id = j.repoId ∧ c1Row.rootPath = r.rootPath ∧
        c1Row.repoName = r.name) ∧
      (∃ c ∈ tieStore.commits, c.id = j.commitId ∧ c1Row.sha = c.sha ∧
        c1Row.subject = c.subject) ∧
      claimStoreUpdate tieStore 1 "w1" 99 = claimStoreUpdate tieStore j.id "w1" 99 :=
  (claimJob_fifo_spec tieStore "w1" 99
      (some (c1Row, claimStoreUpdate tieStore 1 "w1" 99)) (by decide) (by decide)).2
    c1Row (claimStoreUpdate tieStore 1 "w1" 99) rfl

/-- C1 counterexample: with two queued jobs of equal enqueuedAt, the query
`ORDER BY j.enqueued_at LIMIT 1` may return the job with the larger id, so
the claimed ascending-id tie-break does not hold. -/
theorem claimJob_tiebreak_cex :
    ClaimJobRel tieStore "w1" 99
      (some (⟨claimedView tieJob2 "w1" 99, "/tmp/x", "x", "abc123", "subj"⟩,
        claimStoreUpdate tieStore 2 "w1" 99)) ∧
    Intact tieStore ∧
    tieJob1 ∈ tieStore.jobs ∧ tieJob2 ∈ tieStore.jobs ∧
    tieJob1.status = JobStatus.queued ∧ tieJob2.status = JobStatus.queued ∧
    tieJob1.enqueuedAt = tieJob2.enqueuedAt ∧ tieJob1.id < tieJob2.id ∧
    (claimedView tieJob2 "w1" 99).id = tieJob2.id := by decide

/-! ## C3: CompleteJob preconditions -/

/-- C3 (amended): CompleteJob checks nothing about the job's status or
existence: it succeeds whenever no review row with that jobId exists (its
UPDATE simply matches zero or more rows), and it fails — the transaction
rolls back, leaving the store unchanged — exactly when a review with that
jobId already exists, through the unique-jobId insert. -/
theorem completeJob_no_precondition_spec (s : Store) (now jobId : Nat)
    (a p o : String) :
    ((∀ r ∈ s.reviews, r.jobId ≠ jobId) →
      (CompleteJob s now jobId a p o).isOk = true) ∧
    ((∃ r ∈ s.reviews, r.jobId = jobId) →
      CompleteJob s now jobId a p o =
        Except.error "UNIQUE constraint failed: reviews.job_id") := by
  constructor
  · intro hnone
    unfold CompleteJob
    rw [if_neg]
    · rfl
    · intro hx
      obtain ⟨r, hr, heq⟩ := List.any_eq_true.mp hx
      exact hnone r hr (by simpa using heq)
  · intro hex
    obtain ⟨r, hr, heq⟩ := hex
    unfold CompleteJob
    rw [if_pos]
    exact List.any_eq_true.mpr ⟨r, hr, by simpa using heq⟩

/-- Witness for C3: success without a prior review, failure with one. -/
theorem completeJob_no_precondition_spec_witness :
    (CompleteJob tieStore 5 1 "codex" "p" "o").isOk = true ∧
    CompleteJob reviewedStore 9 1 "codex" "p" "o" =
      Except.error "UNIQUE constraint failed: reviews.job_id" :=
  ⟨(completeJob_no_precondition_spec tieStore 5 1 "codex" "p" "o").1 (by decide),
   (completeJob_no_precondition_spec reviewedStore 9 1 "codex" "p" "o").2
     ⟨reviewEx, by decide, by decide⟩⟩

/-- C3 counterexample: completing a queued (not running) job succeeds, and so
does completing a job id that exists nowhere in the store. -/
theorem completeJob_nonrunning_ok_cex :
    tieJob1 ∈ tieStore.jobs ∧ tieJob1.id = 1 ∧
    tieJob1.status ≠ JobStatus.running ∧
    (CompleteJob tieStore 5 1 "codex" "p" "o").isOk = true ∧
    Store.empty.jobs = [] ∧
    (CompleteJob Store.empty 5 7 "codex" "p" "o").isOk = true := by decide

/-! ## C6: ListJobs ordering -/

/-- Pairwise conjunction of two pairwise relations. -/
theorem pairwise_and_helper {α : Type} {R S : α → α → Prop} :
    ∀ l : List α, l.Pairwise R → l.Pairwise S →
      l.Pairwise (fun a b => R a b ∧ S a b)
| [], _, _ => List.Pairwise.nil
| _ :: t, List.Pairwise.cons hR hRt, List.Pairwise.cons hS hSt =>
    List.Pairwise.cons (fun b hb => ⟨hR b hb, hS b hb⟩)
      (pairwise_and_helper t hRt hSt)

/-- C6 (amended): every ListJobs result is in non-increasing enqueuedAt
order; the order is strictly decreasing whenever the listed rows carry
pairwise distinct enqueuedAt values, but not in general (see the
counterexample with a tie). -/
theorem listJobs_order_spec (s : Store) (f : String) (lim : Int)
    (out : List JobRow) (h : ListJobsRel s f lim out) :
    out.Pairwise (fun a b => b.job.enqueuedAt ≤ a.job.enqueuedAt) ∧
    ((joinedRows s f).Pairwise
        (fun a b => a.job.enqueuedAt ≠ b.job.enqueuedAt) →
      out.Pairwise (fun a b => b.job.enqueuedAt < a.job.enqueuedAt)) := by
  obtain ⟨full, hperm, hsort, hout⟩ := h
  have hsub : out.Sublist full := by
    subst hout
    split
    · exact List.take_sublist _ _
    · exact List.Sublist.refl _
  refine ⟨hsort.sublist hsub, fun hne => ?_⟩
  have hne' : full.Pairwise (fun a b => a.job.enqueuedAt ≠ b.job.enqueuedAt) :=
    (hperm.pairwise_iff (fun h' => Ne.symm h')).mpr hne
  have hlt : full.Pairwise (fun a b => b.job.enqueuedAt < a.job.enqueuedAt) :=
    (pairwise_and_helper full hsort hne').imp
      (fun hab => Nat.lt_of_le_of_ne hab.1 (Ne.symm hab.2))
  exact hlt.sublist hsub

/-- Witness for C6 on the distinct-instant store. -/
theorem listJobs_order_spec_witness :
    (joinedRows distStore "").Pairwise
      (fun a b => b.job.enqueuedAt ≤ a.job.enqueuedAt) ∧
    (joinedRows distStore "").Pairwise
      (fun a b => b.job.enqueuedAt < a.job.enqueuedAt) := by
  have h := listJobs_order_spec distStore "" 0 (joinedRows distStore "")
    ⟨joinedRows distStore "", List.Perm.refl _, by decide, by decide⟩
  exact ⟨h.1, h.2 (by decide)⟩

/-- C6 counterexample: with two rows of equal enqueuedAt, ListJobs may return
them in an order that is not strictly decreasing. -/
theorem listJobs_strict_cex :
    ListJobsRel tieStore "" 0 (joinedRows tieStore "") ∧
    2 ≤ (joinedRows tieStore "").length ∧
    ¬ (joinedRows tieStore "").Pairwise
        (fun a b => b.job.enqueuedAt < a.job.enqueuedAt) :=
  ⟨⟨joinedRows tieStore "", List.Perm.refl _, by decide, by decide⟩,
   by decide, by decide⟩

/-! ## C2: CompleteJob and the review/done invariant -/

/-- A successful CompleteJob commits exactly the transaction body. -/
theorem completeJob_ok_eq (s s' : Store) (now jobId : Nat) (a p o : String)
    (hok : CompleteJob s now jobId a p o = Except.ok s') :
    (s.reviews.any (fun r => r.jobId = jobId)) = false ∧
    s' = completeStoreUpdate s now jobId a p o := by
  unfold CompleteJob at hok
  by_cases hguard : (s.reviews.any (fun r => r.jobId = jobId)) = true
  · rw [if_pos hguard] at hok
    cases hok
  · have hfalse : (s.reviews.any (fun r => r.jobId = jobId)) = false :=
      Bool.eq_false_iff.mpr (fun h => hguard h)
    rw [if_neg hguard] at hok
    exact ⟨hfalse, (Except.ok.inj hok).symm⟩

/-- C2 (amended): after every successful completeJob(jobId, …) exactly one
Review row with that jobId exists and every job row with that id has status
done, both effects coming from the single committed transaction (an error
leaves the store unchanged); and in every reachable store a job with status
done has a Review — the converse direction of the claimed iff fails, see the
counterexample. -/
theorem completeJob_review_invariant_spec :
    (∀ s s' now jobId a p o, CompleteJob s now jobId a p o = Except.ok s' →
      s'.reviews.countP (fun r => r.jobId = jobId) = 1 ∧
      (∀ j ∈ s'.jobs, j.id = jobId → j.status = JobStatus.done)) ∧
    (∀ s, Reachable s → ∀ j ∈ s.jobs, j.status = JobStatus.done →
      ∃ r ∈ s.reviews, r.jobId = j.id) := by
  constructor
  · intro s s' now jobId a p o hok
    obtain ⟨hguard, hs'⟩ := completeJob_ok_eq s s' now jobId a p o hok
    have hzero : s.reviews.countP (fun r => r.jobId = jobId) = 0 := by
      rw [List.countP_eq_zero]
      intro r hr
      have := List.any_eq_false.mp hguard r hr
      simpa using this
    subst hs'
    constructor
    · have hre : (completeStoreUpdate s now jobId a p o).reviews =
          s.reviews ++ [newReview s jobId a p o] := rfl
      rw [hre, List.countP_append, hzero]
      simp [newReview]
    · intro j hj hid
      obtain ⟨k, hk, hkj⟩ := List.mem_map.mp hj
      by_cases hcase : k.id = jobId
      · rw [if_pos hcase] at hkj
        subst hkj
        rfl
      · rw [if_neg hcase] at hkj
        subst hkj
        exact absurd hid hcase
  · intro s hreach
    induction hreach with
    | init =>
      intro j hj _
      cases hj
    | @step t t' hr hstep ih =>
      cases hstep with
      | createRepo rootPath name hfresh =>
        intro j hj hdone
        exact ih j hj hdone
      | createCommit repoId sha subject hfresh =>
        intro j hj hdone
        exact ih j hj hdone
      | enqueue now repoId commitId agent =>
        intro j hj hdone
        rcases List.mem_append.mp hj with hj' | hj'
        · exact ih j hj' hdone
        · rw [List.mem_singleton.mp hj'] at hdone
          cases hdone
      | claim u w now row hrel =>
        intro j hj hdone
        obtain ⟨jj, hjj, hc, hmin, hrj, hcm, hrow, hupd⟩ := hrel
        subst hupd
        obtain ⟨k, hk, hkj⟩ := List.mem_map.mp hj
        by_cases hcase : k.id = jj.id
        · rw [if_pos hcase] at hkj
          subst hkj
          cases hdone
        · rw [if_neg hcase] at hkj
          subst hkj
          exact ih k hk hdone
      | complete u now jobId a p o hok =>
        intro j hj hdone
        obtain ⟨hguard, hs'⟩ := completeJob_ok_eq _ _ now jobId a p o hok
        subst hs'
        obtain ⟨k, hk, hkj⟩ := List.mem_map.mp hj
        by_cases hcase : k.id = jobId
        · refine ⟨newReview t jobId a p o, ?_, ?_⟩
          · exact List.mem_append_right _ (List.mem_singleton_self _)
          · rw [if_pos hcase] at hkj
            subst hkj
            simpa [newReview] using hcase.symm
        · rw [if_neg hcase] at hkj
          subst hkj
          obtain ⟨r, hrmem, hrjob⟩ := ih k hk hdone
          exact ⟨r, List.mem_append_left _ hrmem, hrjob⟩
      | fail now jobId msg =>
        intro j hj hdone
        obtain ⟨k, hk, hkj⟩ := List.mem_map.mp hj
        by_cases hcase : k.id = jobId
        · rw [if_pos hcase] at hkj
          subst hkj
          cases hdone
        · rw [if_neg hcase] at hkj
          subst hkj
          exact ih k hk hdone

/-- The trace reaches the completed store through the storage API. -/
theorem reachable_exS5 : Reachable exS5 :=
  Reachable.step
    (Reachable.step
      (Reachable.step
        (Reachable.step
          (Reachable.step Reachable.init
            (Step.createRepo Store.empty "/tmp/x" "x" (by decide)))
          (Step.createCommit exS1 1 "abc123" "subj" (by decide)))
        (Step.enqueue exS2 1 1 1 "codex"))
      (Step.claim exS3 exS4 "w1" 2 exRow (by decide)))
    (Step.complete exS4 exS5 3 1 "codex" "p" "out" (by rfl))

/-- The trace then reaches the failed-after-completion store. -/
theorem reachable_exS6 : Reachable exS6 :=
  Reachable.step reachable_exS5 (Step.fail exS5 4 1 "boom")

/-- Witness for C2: the concrete trace completion, and the invariant
direction at the reachable completed store. -/
theorem completeJob_review_invariant_spec_witness :
    (exS5.reviews.countP (fun r => r.jobId = 1) = 1 ∧
      (∀ j ∈ exS5.jobs, j.id = 1 → j.status = JobStatus.done)) ∧
    (∃ r ∈ exS5.reviews, r.jobId = exDoneJob.id) :=
  ⟨completeJob_review_invariant_spec.1 exS4 exS5 3 1 "codex" "p" "out" (by rfl),
   completeJob_review_invariant_spec.2 exS5 reachable_exS5 exDoneJob
     (by decide) (by decide)⟩

/-- C2 counterexample: the reachable store exS6 (enqueue, claim, complete,
then FailJob) holds a Review whose job's status is failed, so a Review can
exist although the job's status is not done. -/
theorem review_without_done_cex :
    Reachable exS6 ∧
    ∃ r ∈ exS6.reviews, ∃ j ∈ exS6.jobs, r.jobId = j.id ∧
      j.status ≠ JobStatus.done :=
  ⟨reachable_exS6, by decide⟩

/-! ## C10: GetJobCounts -/

/-- The four status counters partition the jobs together with the canceled
count. -/
theorem countP_status_partition (l : List ReviewJob) :
    l.countP (fun j => j.status = JobStatus.queued) +
    l.countP (fun j => j.status = JobStatus.running) +
    l.countP (fun j => j.status = JobStatus.done) +
    l.countP (fun j => j.status = JobStatus.failed) +
    l.countP (fun j => j.status = JobStatus.canceled) = l.length := by
  induction l with
  | nil => simp
  | cons j t ih =>
    cases h : j.status <;> simp [List.countP_cons, h] <;> omega

/-- C10: GetJobCounts returns the per-status counts for queued, running, done
and failed only; canceled jobs appear in none of the four buckets — the four
counts plus the canceled count give the total — so on a store with a canceled
job the sum of the returned counts is strictly below the number of jobs. -/
theorem getJobCounts_spec (s : Store) :
    (GetJobCounts s).1 + (GetJobCounts s).2.1 + (GetJobCounts s).2.2.1 +
      (GetJobCounts s).2.2.2 +
      s.jobs.countP (fun j => j.status = JobStatus.canceled) = s.jobs.length ∧
    (∃ t : Store,
      (GetJobCounts t).1 + (GetJobCounts t).2.1 + (GetJobCounts t).2.2.1 +
        (GetJobCounts t).2.2.2 < t.jobs.length) := by
  refine ⟨countP_status_partition s.jobs, ⟨canceledStore, by decide⟩⟩

/-! ## C4, C5, C9: parseStream -/

/-- On an all-valid stream holding a done line, the loop accumulates the
contents up to and including the first done line, whatever its counters. -/
theorem parseStreamLoop_valid_done (sinkSet : Bool) (lines : List StreamLine) :
    (∀ x ∈ lines, validLine x) → (∃ x ∈ lines, doneLine x) →
    ∀ acc ws fails saw,
      parseStreamLoop sinkSet lines acc ws fails saw =
        ⟨finalText (acc ++ textOf (uptoDone lines)),
         ws ++ writesOf sinkSet (uptoDone lines), none⟩ := by
  induction lines with
  | nil =>
    intro _ hdone
    obtain ⟨x, hx, -⟩ := hdone
    cases hx
  | cons x t ih =>
    intro hval hdone acc ws fails saw
    obtain ⟨hraw, r, hparse, herr⟩ := hval x (List.mem_cons_self x t)
    have hupto : uptoDone (x :: t) = if r.done then [x] else x :: uptoDone t := by
      simp [uptoDone, hparse]
    simp only [parseStreamLoop, if_neg hraw, hparse]
    rw [if_neg (show ¬ r.error ≠ "" from fun hh => hh herr)]
    by_cases hd : r.done = true
    · rw [if_pos hd, hupto, if_pos hd]
      simp only [textOf, writesOf, lineContent, hparse, String.append_empty,
        List.append_nil, finalText]
      by_cases hcs : (r.message.content ≠ "" ∧ sinkSet = true)
      · simp only [if_pos hcs]
        split <;> simp [*]
      · simp only [if_neg hcs, List.append_nil]
        split <;> simp [*]
    · rw [if_neg hd]
      have hdone2 : ∃ y ∈ t, doneLine y := by
        obtain ⟨y, hy, hyd⟩ := hdone
        rcases List.mem_cons.mp hy with rfl | hyt
        · obtain ⟨r2, hr2, hd2⟩ := hyd
          rw [hparse] at hr2
          injection hr2 with h12
          exact absurd (by rw [h12]; exact hd2) hd
        · exact ⟨y, hyt, hyd⟩
      rw [ih (fun y hy => hval y (List.mem_cons_of_mem x hy)) hdone2]
      rw [hupto, if_neg hd]
      simp only [textOf, writesOf, lineContent, hparse]
      by_cases hcs : (r.message.content ≠ "" ∧ sinkSet = true)
      · simp only [if_pos hcs, String.append_assoc, List.append_assoc]
      · simp only [if_neg hcs, String.append_assoc, List.nil_append]

/-- Once a valid line has been seen, the failure counter can no longer
trigger, and skipping empty or malformed lines does not change the loop. -/
theorem parseStreamLoop_saw_true (sinkSet : Bool) (lines : List StreamLine) :
    ∀ acc ws f, parseStreamLoop sinkSet lines acc ws f true =
      parseStreamLoop sinkSet (goodLines lines) acc ws 0 true := by
  induction lines with
  | nil => intro acc ws f; rfl
  | cons x t ih =>
    intro acc ws f
    by_cases hraw : x.raw = ""
    · have hg : goodLines (x :: t) = goodLines t := by simp [goodLines, hraw]
      rw [hg]
      simp only [parseStreamLoop, if_pos hraw]
      exact ih acc ws f
    · cases hparse : x.parsed with
      | none =>
        have hg : goodLines (x :: t) = goodLines t := by
          simp [goodLines, hraw, hparse]
        rw [hg]
        simp only [parseStreamLoop, if_neg hraw, hparse]
        rw [if_neg (show ¬ ((!true) = true ∧ f + 1 ≥ 5) by simp)]
        exact ih acc ws (f + 1)
      | some r =>
        have hg : goodLines (x :: t) = x :: goodLines t := by
          simp [goodLines, hraw, hparse]
        rw [hg]
        simp only [parseStreamLoop, if_neg hraw, hparse]
        by_cases herr : r.error ≠ ""
        · rw [if_pos herr, if_pos herr]
        · rw [if_neg herr, if_neg herr]
          by_cases hd : r.done = true
          · rw [if_pos hd, if_pos hd]
          · rw [if_neg hd, if_neg hd]
            exact ih _ _ 0

/-- Below the threshold of five malformed lines before the first valid one,
the loop behaves as if the unparsable and empty lines were absent. -/
theorem parseStreamLoop_below_threshold (sinkSet : Bool) (lines : List StreamLine) :
    ∀ acc ws f, f + malformedCountBeforeValid lines < 5 →
      parseStreamLoop sinkSet lines acc ws f false =
        parseStreamLoop sinkSet (goodLines lines) acc ws 0 false := by
  induction lines with
  | nil => intro acc ws f _; rfl
  | cons x t ih =>
    intro acc ws f hlt
    by_cases hraw : x.raw = ""
    · have hg : goodLines (x :: t) = goodLines t := by simp [goodLines, hraw]
      have hm : malformedCountBeforeValid (x :: t) = malformedCountBeforeValid t := by
        simp [malformedCountBeforeValid, hraw]
      rw [hg]
      simp only [parseStreamLoop, if_pos hraw]
      exact ih acc ws f (by rw [hm] at hlt; exact hlt)
    · cases hparse : x.parsed with
      | none =>
        have hg : goodLines (x :: t) = goodLines t := by
          simp [goodLines, hraw, hparse]
        have hm : malformedCountBeforeValid (x :: t) =
            1 + malformedCountBeforeValid t := by
          simp [malformedCountBeforeValid, hraw, hparse]
        rw [hm] at hlt
        rw [hg]
        simp only [parseStreamLoop, if_neg hraw, hparse]
        rw [if_neg (show ¬ ((!false) = true ∧ f + 1 ≥ 5) by simp; omega)]
        exact ih acc ws (f + 1) (by omega)
      | some r =>
        have hg : goodLines (x :: t) = x :: goodLines t := by
          simp [goodLines, hraw, hparse]
        rw [hg]
        simp only [parseStreamLoop, if_neg hraw, hparse]
        by_cases herr : r.error ≠ ""
        · rw [if_pos herr, if_pos herr]
        · rw [if_neg herr, if_neg herr]
          by_cases hd : r.done = true
          · rw [if_pos hd, if_pos hd]
          · rw [if_neg hd, if_neg hd]
            exact parseStreamLoop_saw_true sinkSet t _ _ 0

/-- With five or more malformed lines due before the first valid one, the
loop fails at the line that carries the counter to five, quoting it. -/
theorem parseStreamLoop_malformed_fail (sinkSet : Bool) (lines : List StreamLine) :
    ∀ acc ws f, f ≤ 4 → 5 ≤ f + malformedCountBeforeValid lines →
      ∃ r, nthMalformedRaw lines (5 - f) = some r ∧
        parseStreamLoop sinkSet lines acc ws f false =
          ⟨"", ws, some ("ollama returned non-JSON response (first line: " ++
            truncate r 200 ++ ")")⟩ := by
  induction lines with
  | nil =>
    intro acc ws f hf hge
    simp [malformedCountBeforeValid] at hge
    omega
  | cons x t ih =>
    intro acc ws f hf hge
    by_cases hraw : x.raw = ""
    · have hm : malformedCountBeforeValid (x :: t) = malformedCountBeforeValid t := by
        simp [malformedCountBeforeValid, hraw]
      rw [hm] at hge
      obtain ⟨r, hr, heq⟩ := ih acc ws f hf hge
      refine ⟨r, ?_, ?_⟩
      · simp only [nthMalformedRaw, if_pos hraw]
        exact hr
      · simp only [parseStreamLoop, if_pos hraw]
        exact heq
    · cases hparse : x.parsed with
      | none =>
        have hm : malformedCountBeforeValid (x :: t) =
            1 + malformedCountBeforeValid t := by
          simp [malformedCountBeforeValid, hraw, hparse]
        rw [hm] at hge
        by_cases h4 : f = 4
        · refine ⟨x.raw, ?_, ?_⟩
          · subst h4
            simp [nthMalformedRaw, hraw, hparse]
          · subst h4
            simp only [parseStreamLoop, if_neg hraw, hparse]
            rw [if_pos (show (!false) = true ∧ 4 + 1 ≥ 5 by simp)]
        · obtain ⟨r, hr, heq⟩ := ih acc ws (f + 1) (by omega) (by omega)
          refine ⟨r, ?_, ?_⟩
          · simp only [nthMalformedRaw, if_neg hraw, hparse]
            rw [if_neg (show ¬ (5 - f = 1) by omega)]
            have h51 : 5 - f - 1 = 5 - (f + 1) := by omega
            rw [h51]
            exact hr
          · simp only [parseStreamLoop, if_neg hraw, hparse]
            rw [if_neg (show ¬ ((!false) = true ∧ f + 1 ≥ 5) by simp; omega)]
            exact heq
      | some r =>
        have hm : malformedCountBeforeValid (x :: t) = 0 := by
          simp [malformedCountBeforeValid, hraw, hparse]
        rw [hm] at hge
        omega

/-- An in-band error line after valid, error-free, not-done lines stops the
loop with the accumulated text and the decorated error. -/
theorem parseStreamLoop_inband_error (sinkSet : Bool) (l : StreamLine)
    (resp : OllamaChatResponse) (rest : List StreamLine)
    (hraw : l.raw ≠ "") (hparse : l.parsed = some resp)
    (herr : resp.error ≠ "") :
    ∀ pre : List StreamLine, (∀ x ∈ pre, validLine x ∧ ¬ doneLine x) →
      ∀ acc ws fails saw,
        parseStreamLoop sinkSet (pre ++ l :: rest) acc ws fails saw =
          ⟨acc ++ textOf pre, ws ++ writesOf sinkSet pre,
           some ("ollama error: " ++ resp.error)⟩ := by
  intro pre
  induction pre with
  | nil =>
    intro _ acc ws fails saw
    simp only [List.nil_append, parseStreamLoop, if_neg hraw, hparse]
    rw [if_pos herr]
    simp [textOf, writesOf]
  | cons x t ih =>
    intro hpre acc ws fails saw
    obtain ⟨⟨hxraw, r, hxparse, hxerr⟩, hxnd⟩ := hpre x (List.mem_cons_self x t)
    have hd : ¬ r.done = true := fun hdd => hxnd ⟨r, hxparse, hdd⟩
    simp only [List.cons_append, parseStreamLoop, if_neg hxraw, hxparse]
    rw [if_neg (show ¬ r.error ≠ "" from fun hh => hh hxerr), if_neg hd]
    simp only [List.append_eq]
    rw [ih (fun y hy => hpre y (List.mem_cons_of_mem x hy))]
    simp only [textOf, writesOf, lineContent, hxparse]
    by_cases hcs : (r.message.content ≠ "" ∧ sinkSet = true)
    · simp only [if_pos hcs, String.append_assoc, List.append_assoc]
    · simp only [if_neg hcs, String.append_assoc, List.nil_append]

/-- C4: a line that fails to JSON-parse is skipped silently — whenever fewer
than five non-empty malformed lines precede the first line that parses, the
outcome equals that of the stream with the unparsable and empty lines
removed; and once no valid line has been seen while the fifth malformed line
arrives, parsing fails with an error that embeds the offending line truncated
to at most 200 characters — the whole line when it has at most 200
characters, otherwise its first 200 characters (a prefix of length at most
200) followed by an ellipsis. -/
theorem parseStream_malformed_spec (sinkSet : Bool) (lines : List StreamLine) :
    (malformedCountBeforeValid lines < 5 →
      parseStream sinkSet lines = parseStream sinkSet (goodLines lines)) ∧
    (5 ≤ malformedCountBeforeValid lines →
      ∃ r, nthMalformedRaw lines 5 = some r ∧
        parseStream sinkSet lines =
          ⟨"", [], some ("ollama returned non-JSON response (first line: " ++
            truncate r 200 ++ ")")⟩ ∧
        ((truncate r 200 = r ∧ r.length ≤ 200) ∨
          (truncate r 200 = String.mk (r.data.take 200) ++ "..." ∧
            (String.mk (r.data.take 200)).length ≤ 200))) := by
  constructor
  · intro h
    exact parseStreamLoop_below_threshold sinkSet lines "" [] 0 (by omega)
  · intro h
    obtain ⟨r, hnth, heq⟩ :=
      parseStreamLoop_malformed_fail sinkSet lines "" [] 0 (by omega) (by omega)
    refine ⟨r, by simpa using hnth, heq, ?_⟩
    unfold truncate
    by_cases hlen : r.length ≤ 200
    · exact Or.inl ⟨if_pos hlen, hlen⟩
    · refine Or.inr ⟨if_neg hlen, ?_⟩
      show (r.data.take 200).length ≤ 200
      exact List.length_take_le 200 _

/-- Witness for C4: a skipped malformed line, and the five-line failure. -/
theorem parseStream_malformed_spec_witness :
    (malformedCountBeforeValid mixedLines < 5 ∧
      parseStream true mixedLines = parseStream true (goodLines mixedLines)) ∧
    (5 ≤ malformedCountBeforeValid malLines ∧
      ∃ r, nthMalformedRaw malLines 5 = some r ∧
        parseStream true malLines =
          ⟨"", [], some ("ollama returned non-JSON response (first line: " ++
            truncate r 200 ++ ")")⟩ ∧
        ((truncate r 200 = r ∧ r.length ≤ 200) ∨
          (truncate r 200 = String.mk (r.data.take 200) ++ "..." ∧
            (String.mk (r.data.take 200)).length ≤ 200))) :=
  ⟨⟨by decide, (parseStream_malformed_spec true mixedLines).1 (by decide)⟩,
   ⟨by decide, (parseStream_malformed_spec true malLines).2 (by decide)⟩⟩

/-- C5: on a stream of valid lines containing a done line, the result is the
concatenation of the message contents up to and including the first done
line — lines after it are ignored — with each non-empty chunk forwarded to
the sink in order when one is set; when that concatenation is empty the
result text is the literal placeholder, and in both cases no error is
returned. -/
theorem parseStream_valid_stream_spec (sinkSet : Bool) (lines : List StreamLine)
    (hval : ∀ x ∈ lines, validLine x) (hdone : ∃ x ∈ lines, doneLine x) :
    parseStream sinkSet lines =
      ⟨finalText (textOf (uptoDone lines)),
       writesOf sinkSet (uptoDone lines), none⟩ ∧
    (textOf (uptoDone lines) = "" →
      (parseStream sinkSet lines).text = "No review output generated" ∧
      (parseStream sinkSet lines).err = none) := by
  have h := parseStreamLoop_valid_done sinkSet lines hval hdone "" [] 0 false
  have h2 : parseStream sinkSet lines =
      ⟨finalText (textOf (uptoDone lines)),
       writesOf sinkSet (uptoDone lines), none⟩ := by
    show parseStreamLoop sinkSet lines "" [] 0 false = _
    rw [h]
    simp [String.empty_append]
  refine ⟨h2, fun hempty => ?_⟩
  rw [h2]
  simp [finalText, hempty]

/-- Witness for C5: the four-chunk happy path and the empty-output case. -/
theorem parseStream_valid_stream_spec_witness :
    parseStream true c5Lines =
      ⟨finalText (textOf (uptoDone c5Lines)),
       writesOf true (uptoDone c5Lines), none⟩ ∧
    parseStream true c5Lines =
      ⟨"This is a test", ["This ", "is ", "a test"], none⟩ ∧
    ((parseStream true emptyDoneLines).text = "No review output generated" ∧
      (parseStream true emptyDoneLines).err = none) :=
  ⟨(parseStream_valid_stream_spec true c5Lines (by decide) (by decide)).1,
   by decide,
   (parseStream_valid_stream_spec true emptyDoneLines (by decide)
      (by decide)).2 (by decide)⟩

/-- C9: when a parsed line carries a non-empty in-band error field, parsing
stops at that line — the remaining lines are ignored — and returns the text
accumulated so far together with the error message "ollama error: " followed
by that field, rather than discarding the partial output. -/
theorem parseStream_inband_error_spec (sinkSet : Bool)
    (pre rest : List StreamLine) (l : StreamLine) (resp : OllamaChatResponse)
    (hpre : ∀ x ∈ pre, validLine x ∧ ¬ doneLine x)
    (hraw : l.raw ≠ "") (hparse : l.parsed = some resp)
    (herr : resp.error ≠ "") :
    parseStream sinkSet (pre ++ l :: rest) =
      ⟨textOf pre, writesOf sinkSet pre,
       some ("ollama error: " ++ resp.error)⟩ := by
  have h := parseStreamLoop_inband_error sinkSet l resp rest hraw hparse herr
    pre hpre "" [] 0 false
  show parseStreamLoop sinkSet (pre ++ l :: rest) "" [] 0 false = _
  rw [h]
  simp [String.empty_append]

/-- Witness for C9: partial output kept alongside the decorated error. -/
theorem parseStream_inband_error_spec_witness :
    parseStream true (c9Pre ++ c9ErrLine :: c9Rest) =
      ⟨textOf c9Pre, writesOf true c9Pre,
       some ("ollama error: " ++ respErr.error)⟩ ∧
    parseStream true (c9Pre ++ c9ErrLine :: c9Rest) =
      ⟨"Hello ", ["Hello "], some "ollama error: model crashed"⟩ :=
  ⟨parseStream_inband_error_spec true c9Pre c9Rest c9ErrLine respErr
     (by decide) (by decide) rfl (by decide), by decide⟩

end RoboRev
